import Mathlib

/-!
# Verification of the marriott-finder query-translation-and-filtering pipeline

Shallow embedding of the core logic of `server.js`: the Ajv filter-schema
validator, the LLM-output correction steps of `queryToFilter`, the
predicate-chain `applyFilter`, the cheapest/nearest intent post-processing,
and the `POST /search` request handler.

Modelling conventions:
* JavaScript numbers are modelled as `ℚ` (the code only compares, subtracts
  and takes minima of finite values; `NaN`/`Infinity` do not arise for the
  dataset's coerced numeric fields).
* Strings are ASCII in all relevant data; `toLowerCase`/`trim`/`\s`/`\b` are
  modelled with ASCII semantics via `Char.toLower`, `Char.isWhitespace` and
  the word-character class `[A-Za-z0-9_]`.
* A parsed JSON filter object is an association list of string keys and
  scalar JSON values (`JVal`); the LLM only ever produces flat objects of
  scalars, and the schema validator types-checks exactly these.
* The external OpenAI call is an input to the handler, modelled by
  `LLMResult`: the call may throw, return non-JSON text, or return a parsed
  JSON object.  JavaScript exceptions are modelled with `Except String`.
-/

namespace MarriottFinder

/-! ## ASCII string helpers (JS `toLowerCase`, `trim`, `includes`) -/

/-- JS `String.prototype.toLowerCase`, ASCII semantics. -/
def lc (s : String) : String := String.mk (s.toList.map Char.toLower)

/-- JS `String.prototype.trim`, ASCII whitespace. -/
def jsTrim (s : String) : String :=
  String.mk (((s.toList.dropWhile Char.isWhitespace).reverse.dropWhile
    Char.isWhitespace).reverse)

/-- Substring test on character lists: does `needle` occur contiguously in
`hay`?  Mirrors JS `String.prototype.includes` (which is `true` for the
empty needle). -/
def listContainsSub : List Char → List Char → Bool
  | [], needle => needle.isEmpty
  | c :: t, needle => needle.isPrefixOf (c :: t) || listContainsSub t needle

/-- JS `hay.includes(needle)` on Lean strings. -/
def strContainsSub (hay needle : String) : Bool :=
  listContainsSub hay.toList needle.toList

/-- Source `contains`: `haystack.toLowerCase().includes(needle.toLowerCase())`. -/
def contains (haystack needle : String) : Bool :=
  strContainsSub (lc haystack) (lc needle)

/-- Accumulator pass splitting a character list into maximal runs of
non-whitespace characters.  This is JS `str.split(/\s+/).filter(Boolean)`. -/
def tokensAux : List Char → List Char → List (List Char)
  | [], acc => if acc.isEmpty then [] else [acc.reverse]
  | c :: t, acc =>
    if c.isWhitespace then
      (if acc.isEmpty then tokensAux t [] else acc.reverse :: tokensAux t [])
    else tokensAux t (c :: acc)

/-- The token list of `server.js` `containsAllTokens`:
`query.toLowerCase().split(/\s+/).filter(Boolean)`. -/
def tokens (query : String) : List (List Char) := tokensAux (lc query).toList []

/-- Source `containsAllTokens`: every whitespace-delimited token of
`query` occurs (case-insensitively) as a substring of `text`. -/
def containsAllTokens (text query : String) : Bool :=
  (tokens query).all (fun tok => listContainsSub (lc text).toList tok)

/-! ## Word-boundary regex tests (`/\b(...)\b/i.test(query)`) -/

/-- JS regex word character class `\w` = `[A-Za-z0-9_]`. -/
def isWordChar (c : Char) : Bool := c.isAlphanum || c = '_'

/-- Does the (lower-cased) character list `s` contain the literal word `w`
starting at index `i`, with `\b` word boundaries on both sides?  All words
used below begin and end with word characters, so `\b` means: the preceding
(resp. following) character is absent or not a word character. -/
def hasWordAt (s w : List Char) (i : Nat) : Bool :=
  decide ((s.drop i).take w.length = w)
    && (decide (i = 0) || !(isWordChar (s.getD (i - 1) ' ')))
    && (decide (s.length ≤ i + w.length) || !(isWordChar (s.getD (i + w.length) ' ')))

/-- The test `/\b(w1|w2|...)\b/i.test(q)` for literal
alternatives `words` (given lower-case). -/
def regexWordMatch (words : List String) (q : String) : Bool :=
  (List.range ((lc q).toList.length + 1)).any
    (fun i => words.any (fun w => hasWordAt (lc q).toList w.toList i))

/-- Alternatives of the cheapest-intent regex
`/\b(cheapest|lowest|least expensive|min(?:imum)?)\b/i` (line 204). -/
def cheapestWords : List String := ["cheapest", "lowest", "least expensive", "min", "minimum"]

/-- Alternatives of the nearest-intent regex `/\b(nearest|closest)\b/i` (line 195). -/
def nearestWords : List String := ["nearest", "closest"]

/-- The test `/\b(cheapest|lowest|least expensive|min(?:imum)?)\b/i.test(query)`. -/
def wantsCheapest (query : String) : Bool := regexWordMatch cheapestWords query

/-- The test `/\b(nearest|closest)\b/i.test(query)`. -/
def wantsNearest (query : String) : Bool := regexWordMatch nearestWords query

/-! ## JSON scalar values and flat objects -/

/-- A scalar JSON value, as produced by `JSON.parse` on the flat filter
objects the model returns. -/
inductive JVal where
  | jstr (s : String)
  | jnum (q : ℚ)
  | jbool (b : Bool)
  | jnull
deriving DecidableEq, Repr

/-- A parsed JSON object: association list of keys and scalar values
(`JSON.parse` never yields duplicate keys). -/
abbrev JObj := List (String × JVal)

/-- JS truthiness of a scalar value (`""`, `0`, `false`, `null` are falsy). -/
def jsTruthy : JVal → Bool
  | .jstr s => s ≠ ""
  | .jnum q => q ≠ 0
  | .jbool b => b
  | .jnull => false

/-- Truthiness of `obj.k` where an absent key reads as `undefined` (falsy). -/
def jsTruthyOpt : Option JVal → Bool
  | some v => jsTruthy v
  | none => false

/-- Property read `obj[k]`; `none` models `undefined`. -/
def objGet : JObj → String → Option JVal
  | [], _ => none
  | (k', v) :: t, k => if k' = k then some v else objGet t k

/-- Property write `obj[k] = v`: replaces the value in place, or appends the
key if absent. -/
def objSet : JObj → String → JVal → JObj
  | [], k, v => [(k, v)]
  | (k', v') :: t, k, v => if k' = k then (k, v) :: t else (k', v') :: objSet t k v

/-- Property removal `delete obj[k]`. -/
def objDelete : JObj → String → JObj
  | [], _ => []
  | (k', v) :: t, k => if k' = k then objDelete t k else (k', v) :: objDelete t k

/-! ## Hotel records and locale knowledge -/

/-- A normalised hotel record (the shape produced by the CSV loader in
`server.js`: numeric fields already coerced, `State` defaulted to `""`,
`DistanceKmFromAirport` defaulted to `0`). -/
structure HotelRecord where
  Brand : String
  Hotel : String
  City : String
  AvgPtValue : ℚ
  AvgPtsNight : ℚ
  AvgPts5Nights : ℚ
  State : String
  DistanceKmFromAirport : ℚ
deriving DecidableEq, Repr

/-- Source `knownStates` (line 61): lower-cased non-empty state names of the
dataset.  (`new Set` deduplicates; only membership is ever used, so a list
is an adequate model.) -/
def knownStatesOf (records : List HotelRecord) : List String :=
  (records.map (fun r => lc r.State)).filter (fun s => s ≠ "")

/-- The `cityAliases` table (lines 64-71), in source order. -/
def cityAliases : List (String × String) :=
  [("bangalore", "bengaluru"), ("bengaluru", "bengaluru"), ("bombay", "mumbai"),
   ("delhi", "new delhi"), ("gurugram", "gurgaon"), ("gurgaon", "gurgaon")]

/-- Source `canonicalCity` (lines 73-76): `cityAliases[name.toLowerCase()] || name`. -/
def canonicalCity (name : String) : String :=
  match cityAliases.find? (fun p => p.1 = lc name) with
  | some p => p.2
  | none => name

/-! ## Filter schema validation (Ajv, lines 86-100) -/

/-- The four `type: 'string'` properties of `filterSchema`. -/
def stringKeys : List String := ["city", "brand", "state", "hotel"]

/-- The three `type: 'number'` properties of `filterSchema`. -/
def numberKeys : List String := ["minPtsNight", "maxPtsNight", "maxDistanceKm"]

/-- The whitelist of the seven allowed filter keys. -/
def filterKeys : List String := stringKeys ++ numberKeys

/-- One Ajv validation error. -/
inductive SchemaErr where
  | additionalProperty (key : String)
  | wrongType (key : String) (expected : String)
deriving DecidableEq, Repr

/-- The schema violation (if any) of a single property of the candidate
object, per `filterSchema`: unknown keys violate
`additionalProperties: false`; known keys must carry their declared type. -/
def entryErr (k : String) (v : JVal) : Option SchemaErr :=
  if stringKeys.contains k then
    match v with
    | .jstr _ => none
    | _ => some (.wrongType k "string")
  else if numberKeys.contains k then
    match v with
    | .jnum _ => none
    | _ => some (.wrongType k "number")
  else some (.additionalProperty k)

/-- All schema violations of a candidate filter object (Ajv reports the
first of these with default options; validity — what the server branches
on — is their absence). -/
def validateErrors (o : JObj) : List SchemaErr :=
  o.filterMap (fun p => entryErr p.1 p.2)

/-- Validity `validateFilter(filter)` as a boolean (line 198). -/
def validateOk (o : JObj) : Bool := (validateErrors o).isEmpty

/-! ## The typed filter consumed by `applyFilter`

After successful validation every present key holds its declared scalar
type, so `applyFilter`'s reads of the filter object are captured by this
typed record of optional fields. -/

/-- A validated filter: each of the seven allowed keys, present or absent. -/
structure Filter where
  city : Option String := none
  brand : Option String := none
  state : Option String := none
  hotel : Option String := none
  minPtsNight : Option ℚ := none
  maxPtsNight : Option ℚ := none
  maxDistanceKm : Option ℚ := none
deriving DecidableEq, Repr

/-- The filter with zero keys. -/
def emptyFilter : Filter := {}

/-- String-valued property of a validated filter object. -/
def getStr (o : JObj) (k : String) : Option String :=
  match objGet o k with
  | some (.jstr s) => some s
  | _ => none

/-- Number-valued property of a validated filter object. -/
def getNum (o : JObj) (k : String) : Option ℚ :=
  match objGet o k with
  | some (.jnum q) => some q
  | _ => none

/-- View of a (validated) filter object as a typed `Filter`. -/
def toFilter (o : JObj) : Filter :=
  { city := getStr o "city", brand := getStr o "brand", state := getStr o "state",
    hotel := getStr o "hotel", minPtsNight := getNum o "minPtsNight",
    maxPtsNight := getNum o "maxPtsNight", maxDistanceKm := getNum o "maxDistanceKm" }

/-! ## `applyFilter` (lines 156-179), one step per `if` block -/

/-- Line 158: `if (filter.city) res = res.filter(r => containsAllTokens(r.City, filter.city))`. -/
def stepCity (c? : Option String) (l : List HotelRecord) : List HotelRecord :=
  match c? with
  | some c => if c = "" then l else l.filter (fun r => containsAllTokens r.City c)
  | none => l

/-- Lines 160-165: the brand block, with the `"marriott"` umbrella no-op. -/
def stepBrand (b? : Option String) (l : List HotelRecord) : List HotelRecord :=
  match b? with
  | some b =>
    if b = "" then l
    else if lc (jsTrim b) = "marriott" then l
    else l.filter (fun r => contains r.Brand b || contains r.Hotel b)
  | none => l

/-- Lines 167-169: the hotel block. -/
def stepHotel (h? : Option String) (l : List HotelRecord) : List HotelRecord :=
  match h? with
  | some h => if h = "" then l else l.filter (fun r => containsAllTokens r.Hotel h)
  | none => l

/-- Lines 171-173: the state block. -/
def stepState (s? : Option String) (l : List HotelRecord) : List HotelRecord :=
  match s? with
  | some s => if s = "" then l else l.filter (fun r => containsAllTokens r.State s)
  | none => l

/-- Line 175: `if (filter.maxPtsNight !== undefined) ...`. -/
def stepMaxPts (m? : Option ℚ) (l : List HotelRecord) : List HotelRecord :=
  match m? with
  | some m => l.filter (fun r => decide (r.AvgPtsNight ≤ m))
  | none => l

/-- Line 176: `if (filter.minPtsNight !== undefined) ...`. -/
def stepMinPts (m? : Option ℚ) (l : List HotelRecord) : List HotelRecord :=
  match m? with
  | some m => l.filter (fun r => decide (m ≤ r.AvgPtsNight))
  | none => l

/-- Line 177: `r.DistanceKmFromAirport && r.DistanceKmFromAirport <= filter.maxDistanceKm`
(number truthiness: nonzero). -/
def stepMaxDist (m? : Option ℚ) (l : List HotelRecord) : List HotelRecord :=
  match m? with
  | some m =>
    l.filter (fun r => decide (r.DistanceKmFromAirport ≠ 0)
      && decide (r.DistanceKmFromAirport ≤ m))
  | none => l

/-- Source `applyFilter` (lines 156-179): the predicate chain, in source order. -/
def applyFilter (filter : Filter) (records : List HotelRecord) : List HotelRecord :=
  stepMaxDist filter.maxDistanceKm
    (stepMinPts filter.minPtsNight
      (stepMaxPts filter.maxPtsNight
        (stepState filter.state
          (stepHotel filter.hotel
            (stepBrand filter.brand
              (stepCity filter.city records))))))

/-! ## The per-key predicates (the specification view of `applyFilter`) -/

/-- Constraint imposed by the `city` key (absent keys impose none). -/
def cityPred : Option String → HotelRecord → Bool
  | some c, r => containsAllTokens r.City c
  | none, _ => true

/-- Constraint imposed by the `brand` key: substring of brand or hotel name,
with the umbrella value `"marriott"` (trimmed, lower-cased) a no-op. -/
def brandPred : Option String → HotelRecord → Bool
  | some b, r =>
    if lc (jsTrim b) = "marriott" then true
    else contains r.Brand b || contains r.Hotel b
  | none, _ => true

/-- Constraint imposed by the `hotel` key. -/
def hotelPred : Option String → HotelRecord → Bool
  | some h, r => containsAllTokens r.Hotel h
  | none, _ => true

/-- Constraint imposed by the `state` key. -/
def statePred : Option String → HotelRecord → Bool
  | some s, r => containsAllTokens r.State s
  | none, _ => true

/-- Constraint imposed by the `maxPtsNight` key. -/
def maxPtsPred : Option ℚ → HotelRecord → Bool
  | some m, r => decide (r.AvgPtsNight ≤ m)
  | none, _ => true

/-- Constraint imposed by the `minPtsNight` key. -/
def minPtsPred : Option ℚ → HotelRecord → Bool
  | some m, r => decide (m ≤ r.AvgPtsNight)
  | none, _ => true

/-- Constraint imposed by the `maxDistanceKm` key: a truthy (nonzero)
distance within the inclusive bound. -/
def maxDistPred : Option ℚ → HotelRecord → Bool
  | some m, r => decide (r.DistanceKmFromAirport ≠ 0)
      && decide (r.DistanceKmFromAirport ≤ m)
  | none, _ => true

/-- Conjunction of the predicates of all present keys, associated in the
order the source applies them. -/
def matchesFilter (f : Filter) (r : HotelRecord) : Bool :=
  ((((((cityPred f.city r && brandPred f.brand r) && hotelPred f.hotel r)
    && statePred f.state r) && maxPtsPred f.maxPtsNight r)
    && minPtsPred f.minPtsNight r) && maxDistPred f.maxDistanceKm r)

/-! ## Intent post-processing (lines 203-215) -/

/-- JS `Math.min(...data.map(r => r.AvgPtsNight))` for a nonempty `data`
(head/tail view of the mapped values). -/
def minAvgPts (x : ℚ) (xs : List ℚ) : ℚ := xs.foldl min x

/-- Lines 205-206: reduce to the records attaining the minimum
`AvgPtsNight`.  On the empty set `Math.min()` is `Infinity` and the filter
keeps nothing, so the empty set is returned unchanged. -/
def cheapestReduce (data : List HotelRecord) : List HotelRecord :=
  match data.map (fun r => r.AvgPtsNight) with
  | [] => data
  | x :: xs => data.filter (fun r => decide (r.AvgPtsNight = minAvgPts x xs))

/-- Lines 203-207: the cheapest reduction, applied only when the query
matches the cheapest-intent regex. -/
def cheapestStep (query : String) (data : List HotelRecord) : List HotelRecord :=
  if wantsCheapest query then cheapestReduce data else data

/-- The comparison the JS comparator `(a, b) => a.DistanceKmFromAirport -
b.DistanceKmFromAirport` sorts by. -/
def distLe (a b : HotelRecord) : Prop :=
  a.DistanceKmFromAirport ≤ b.DistanceKmFromAirport

instance : DecidableRel distLe :=
  fun a b => inferInstanceAs (Decidable (a.DistanceKmFromAirport ≤ b.DistanceKmFromAirport))

instance : IsTotal HotelRecord distLe :=
  ⟨fun a b => le_total a.DistanceKmFromAirport b.DistanceKmFromAirport⟩

instance : IsTrans HotelRecord distLe :=
  ⟨fun _ _ _ hab hbc => le_trans hab hbc⟩

/-- Lines 211-214: keep strictly positive distances, sort ascending by
distance (a stable sort, as JS `Array.prototype.sort` is), take the first
five. -/
def nearestPost (data : List HotelRecord) : List HotelRecord :=
  ((data.filter (fun r => decide (0 < r.DistanceKmFromAirport))).insertionSort distLe).take 5

/-- Lines 209-215: the nearest sort/truncate, applied only when the query
matches the nearest-intent regex. -/
def nearestStep (query : String) (data : List HotelRecord) : List HotelRecord :=
  if wantsNearest query then nearestPost data else data

/-- Line 196: `if (wantsNearest) delete filter.maxDistanceKm` — performed on
the translated filter object before validation. -/
def stripNearestCap (query : String) (f : JObj) : JObj :=
  if wantsNearest query then objDelete f "maxDistanceKm" else f

/-! ## The `queryToFilter` correction steps (lines 102-144)

The LLM call itself is an input; the corrections transform its parsed JSON
output.  JS statements that would throw `TypeError` (calling `toLowerCase`
on a truthy non-string `filter.city`) are modelled with `Except.error`. -/

/-- The message of the `TypeError` thrown by `x.toLowerCase()` when `x` is
not a string. -/
def toLowerCaseTypeError : String := "filter.city.toLowerCase is not a function"

/-- Line 117: `if (filter.city) filter.city = canonicalCity(filter.city)`. -/
def canonStep (f : JObj) : Except String JObj :=
  match objGet f "city" with
  | some (.jstr s) =>
    if s = "" then .ok f else .ok (objSet f "city" (.jstr (canonicalCity s)))
  | some v => if jsTruthy v then .error toLowerCaseTypeError else .ok f
  | none => .ok f

/-- Lines 119-126: move a known state name out of `city` into `state`. -/
def stateStep (knownStates : List String) (f : JObj) : Except String JObj :=
  match objGet f "city" with
  | some (.jstr s) =>
    if s ≠ "" && !jsTruthyOpt (objGet f "state") then
      (if knownStates.contains (lc s) then
        .ok (objDelete (objSet f "state" (.jstr s)) "city")
      else .ok f)
    else .ok f
  | some v =>
    if jsTruthy v && !jsTruthyOpt (objGet f "state") then .error toLowerCaseTypeError
    else .ok f
  | none => .ok f

/-- Lines 129-136: the first alias key occurring in the lower-cased query,
with its canonical city (iteration in the table's insertion order). -/
def inferCity (query : String) : Option String :=
  (cityAliases.find? (fun p => strContainsSub (lc query) p.1)).map (fun p => p.2)

/-- Lines 128-136: if `city` is (still) falsy, infer it from the query. -/
def inferStep (query : String) (f : JObj) : JObj :=
  if jsTruthyOpt (objGet f "city") then f
  else
    match inferCity query with
    | some c => objSet f "city" (.jstr c)
    | none => f

/-- JS `ToNumber` on a decimal string; `none` models `NaN`.  Handles the
forms the corrections can meet (optional sign, integer and fraction
digits); exponent and hex literals are not modelled. -/
def jsStrToNumber (s : String) : Option ℚ :=
  let t := ((s.toList.dropWhile Char.isWhitespace).reverse.dropWhile
    Char.isWhitespace).reverse
  if t.isEmpty then some 0
  else
    let su : ℚ × List Char :=
      match t with
      | '-' :: r => (-1, r)
      | '+' :: r => (1, r)
      | _ => (1, t)
    let ip := su.2.takeWhile Char.isDigit
    let rest := su.2.dropWhile Char.isDigit
    let ipv : ℚ := (ip.foldl (fun a c => a * 10 + (c.toNat - 48)) 0 : Nat)
    match rest with
    | [] => if ip.isEmpty then none else some (su.1 * ipv)
    | '.' :: fr =>
      if fr.all Char.isDigit && !(ip.isEmpty && fr.isEmpty) then
        some (su.1 * (ipv + ((fr.foldl (fun a c => a * 10 + (c.toNat - 48)) 0 : Nat) : ℚ)
          / ((10 : ℚ) ^ fr.length)))
      else none
    | _ => none

/-- JS `ToNumber` of a scalar value; `none` models `NaN`. -/
def jsToNumber : JVal → Option ℚ
  | .jnum q => some q
  | .jbool b => some (if b then 1 else 0)
  | .jnull => some 0
  | .jstr s => jsStrToNumber s

/-- The comparison `v < 1000` of lines 140-141 (false when `v` is `NaN`). -/
def jsLt1000 (v : JVal) : Bool :=
  match jsToNumber v with
  | some q => decide (q < 1000)
  | none => false

/-- One of lines 140-141:
`if (filter.K !== undefined && filter.K < 1000) delete filter.K`. -/
def dropSmallPts (k : String) (f : JObj) : JObj :=
  match objGet f k with
  | some v => if jsLt1000 v then objDelete f k else f
  | none => f

/-- Lines 138-141: drop `maxPtsNight` and then `minPtsNight` when present
and below 1000. -/
def ptsStep (f : JObj) : JObj :=
  dropSmallPts "minPtsNight" (dropSmallPts "maxPtsNight" f)

/-- The corrections of `queryToFilter` (lines 116-143) on a parsed filter
object, in source order. -/
def correctFilter (knownStates : List String) (query : String) (f : JObj) :
    Except String JObj := do
  let f1 ← canonStep f
  let f2 ← stateStep knownStates f1
  pure (ptsStep (inferStep query f2))

/-! ## The `POST /search` handler (lines 188-222) -/

/-- Outcome of the awaited OpenAI call: the call (or anything else inside
`queryToFilter` before `JSON.parse`) threw; the returned content failed
`JSON.parse` (carrying the `SyntaxError` message); or a parsed object. -/
inductive LLMResult where
  | fault (msg : String)
  | badJson (msg : String)
  | json (o : JObj)
deriving DecidableEq, Repr

/-- Source `queryToFilter` (lines 102-144): the credential check, the LLM call
outcome, `JSON.parse`, and the corrections.  `Except.error` carries the
message of the exception the JS function would throw. -/
def queryToFilter (apiKeySet : Bool) (knownStates : List String) (query : String)
    (llm : LLMResult) : Except String JObj :=
  if apiKeySet = false then .error "OPENAI_API_KEY missing"
  else
    match llm with
    | .fault m => .error m
    | .badJson m => .error m
    | .json o => correctFilter knownStates query o

/-- A response of the `POST /search` handler. -/
inductive SearchResponse where
  | badRequest (msg : String)
  | unprocessable (details : List SchemaErr)
  | unavailable (msg : String)
  | ok (count : Nat) (data : List HotelRecord)
deriving DecidableEq, Repr

/-- The `POST /search` handler (lines 188-222): missing-query check,
translation, nearest-intent cap stripping, schema validation, filtering,
cheapest reduction, nearest sort/truncate; every exception is caught and
surfaced as a 503 with its message. -/
def handleSearch (apiKeySet : Bool) (query? : Option String) (llm : LLMResult)
    (records : List HotelRecord) : SearchResponse :=
  match query? with
  | none => .badRequest "query field required"
  | some q =>
    if q = "" then .badRequest "query field required"
    else
      match queryToFilter apiKeySet (knownStatesOf records) q llm with
      | .error msg => .unavailable msg
      | .ok f0 =>
        let f1 := stripNearestCap q f0
        if validateOk f1 then
          let data := nearestStep q (cheapestStep q (applyFilter (toFilter f1) records))
          .ok data.length data
        else .unprocessable (validateErrors f1)

/-! ## Specification-side acceptance predicates for the schema validator -/

/-- Acceptance of a candidate object as the code's schema defines it: every
key is one of the seven, string keys hold strings, numeric keys hold
numbers (of any sign). -/
def specAccepts (o : JObj) : Bool :=
  o.all fun p =>
    match p.2 with
    | .jstr _ => stringKeys.contains p.1
    | .jnum _ => numberKeys.contains p.1
    | _ => false

/-- Acceptance as the specification's words state it: like `specAccepts`,
but numeric keys must hold non-negative numbers. -/
def claimAccepts (o : JObj) : Bool :=
  o.all fun p =>
    match p.2 with
    | .jstr _ => stringKeys.contains p.1
    | .jnum q => numberKeys.contains p.1 && decide (0 ≤ q)
    | _ => false

/-! ## A small concrete dataset for witnesses -/

/-- Sample record: `AvgPtsNight = 30000`, positive distance. -/
def sampleWestin : HotelRecord :=
  ⟨"Westin", "Westin Gurgaon", "Gurgaon", 14000, 30000, 120000, "Haryana", 12⟩

/-- Sample record: `AvgPtsNight = 25000`, positive distance. -/
def sampleJW : HotelRecord :=
  ⟨"JW Marriott", "JW Marriott New Delhi", "New Delhi", 12000, 25000, 100000, "Delhi", 5⟩

/-- Sample record: `AvgPtsNight = 25000`, unknown (zero) distance. -/
def sampleCourtyard : HotelRecord :=
  ⟨"Courtyard", "Courtyard Agra", "Agra", 9000, 25000, 100000, "Uttar Pradesh", 0⟩

/-- Sample record: `AvgPtsNight = 40000`, positive distance. -/
def sampleRitz : HotelRecord :=
  ⟨"Ritz-Carlton", "The Ritz-Carlton Bangalore", "Bengaluru", 20000, 40000, 160000, "Karnataka", 35⟩

/-- The four sample records, with `AvgPtsNight` values
`[30000, 25000, 25000, 40000]`. -/
def sampleRecords : List HotelRecord :=
  [sampleWestin, sampleJW, sampleCourtyard, sampleRitz]

/-! # Theorems -/

/-! ## Basic lemmas about token and substring matching -/

theorem listContainsSub_nil (h : List Char) : listContainsSub h [] = true := by
  cases h <;> simp [listContainsSub, List.isPrefixOf]

theorem containsAllTokens_of_tokens_nil {q : String} (hq : tokens q = [])
    (t : String) : containsAllTokens t q = true := by
  simp [containsAllTokens, hq]

theorem containsAllTokens_empty (t : String) : containsAllTokens t "" = true :=
  containsAllTokens_of_tokens_nil (q := "") (by decide) t

theorem contains_empty_needle (t : String) : contains t "" = true := by
  show listContainsSub (lc t).toList (lc "").toList = true
  rw [show (lc "").toList = [] from rfl]
  exact listContainsSub_nil _

/-! ## The filter chain is a `List.filter` by the conjunction of predicates -/

theorem stepCity_eq (c? : Option String) (l : List HotelRecord) :
    stepCity c? l = l.filter (cityPred c?) := by
  cases c? with
  | none => exact (List.filter_eq_self.mpr (fun r _ => rfl)).symm
  | some c =>
    simp only [stepCity]
    by_cases hc : c = ""
    · subst hc
      rw [if_pos rfl]
      exact (List.filter_eq_self.mpr (fun r _ => containsAllTokens_empty r.City)).symm
    · rw [if_neg hc]
      rfl

theorem stepBrand_eq (b? : Option String) (l : List HotelRecord) :
    stepBrand b? l = l.filter (brandPred b?) := by
  cases b? with
  | none => exact (List.filter_eq_self.mpr (fun r _ => rfl)).symm
  | some b =>
    simp only [stepBrand]
    by_cases hb : b = ""
    · subst hb
      rw [if_pos rfl]
      refine (List.filter_eq_self.mpr (fun r _ => ?_)).symm
      show brandPred (some "") r = true
      simp only [brandPred]
      rw [if_neg (by decide)]
      simp [contains_empty_needle]
    · rw [if_neg hb]
      by_cases hm : lc (jsTrim b) = "marriott"
      · rw [if_pos hm]
        refine (List.filter_eq_self.mpr (fun r _ => ?_)).symm
        show brandPred (some b) r = true
        simp only [brandPred]
        rw [if_pos hm]
      · rw [if_neg hm]
        refine List.filter_congr (fun r _ => ?_)
        show _ = brandPred (some b) r
        simp only [brandPred]
        rw [if_neg hm]

theorem stepHotel_eq (h? : Option String) (l : List HotelRecord) :
    stepHotel h? l = l.filter (hotelPred h?) := by
  cases h? with
  | none => exact (List.filter_eq_self.mpr (fun r _ => rfl)).symm
  | some h =>
    simp only [stepHotel]
    by_cases hh : h = ""
    · subst hh
      rw [if_pos rfl]
      exact (List.filter_eq_self.mpr (fun r _ => containsAllTokens_empty r.Hotel)).symm
    · rw [if_neg hh]
      rfl

theorem stepState_eq (s? : Option String) (l : List HotelRecord) :
    stepState s? l = l.filter (statePred s?) := by
  cases s? with
  | none => exact (List.filter_eq_self.mpr (fun r _ => rfl)).symm
  | some s =>
    simp only [stepState]
    by_cases hs : s = ""
    · subst hs
      rw [if_pos rfl]
      exact (List.filter_eq_self.mpr (fun r _ => containsAllTokens_empty r.State)).symm
    · rw [if_neg hs]
      rfl

theorem stepMaxPts_eq (m? : Option ℚ) (l : List HotelRecord) :
    stepMaxPts m? l = l.filter (maxPtsPred m?) := by
  cases m? with
  | none => exact (List.filter_eq_self.mpr (fun r _ => rfl)).symm
  | some m => rfl

theorem stepMinPts_eq (m? : Option ℚ) (l : List HotelRecord) :
    stepMinPts m? l = l.filter (minPtsPred m?) := by
  cases m? with
  | none => exact (List.filter_eq_self.mpr (fun r _ => rfl)).symm
  | some m => rfl

theorem stepMaxDist_eq (m? : Option ℚ) (l : List HotelRecord) :
    stepMaxDist m? l = l.filter (maxDistPred m?) := by
  cases m? with
  | none => exact (List.filter_eq_self.mpr (fun r _ => rfl)).symm
  | some m => rfl

theorem applyFilter_eq_filter (f : Filter) (R : List HotelRecord) :
    applyFilter f R = R.filter (matchesFilter f) := by
  simp only [applyFilter, stepCity_eq, stepBrand_eq, stepHotel_eq, stepState_eq,
    stepMaxPts_eq, stepMinPts_eq, stepMaxDist_eq, List.filter_filter]
  refine List.filter_congr (fun r _ => ?_)
  simp only [matchesFilter]
  cases cityPred f.city r <;> cases brandPred f.brand r <;> cases hotelPred f.hotel r <;>
    cases statePred f.state r <;> cases maxPtsPred f.maxPtsNight r <;>
    cases minPtsPred f.minPtsNight r <;> cases maxDistPred f.maxDistanceKm r <;> rfl

/-- C2: `applyFilter` returns the sublist of the input, in original order,
of exactly the records satisfying the conjunction of the predicates of the
present keys; hence its length never exceeds the input's, and the filter
with zero keys returns every record. -/
theorem c2_applyFilter_conjunction_subsequence (f : Filter) (R : List HotelRecord) :
    applyFilter f R = R.filter (matchesFilter f)
    ∧ List.Sublist (applyFilter f R) R
    ∧ (applyFilter f R).length ≤ R.length
    ∧ applyFilter emptyFilter R = R := by
  refine ⟨applyFilter_eq_filter f R, ?_, ?_, ?_⟩
  · rw [applyFilter_eq_filter]; exact List.filter_sublist R
  · rw [applyFilter_eq_filter]; exact List.length_filter_le _ R
  · simp [applyFilter, emptyFilter, stepCity, stepBrand, stepHotel, stepState,
      stepMaxPts, stepMinPts, stepMaxDist]

/-- C3: when `maxDistanceKm = m` is present, a record (with the data
model's non-negative distance) is retained exactly when it passes all other
constraints, its distance is strictly positive, and its distance is at most
`m` (inclusive bound): zero/unknown distances are always excluded, and a
distance equal to the bound is retained. -/
theorem c3_maxDistance_positive_inclusive (f : Filter) (R : List HotelRecord)
    (r : HotelRecord) (m : ℚ) (hm : f.maxDistanceKm = some m)
    (hnn : 0 ≤ r.DistanceKmFromAirport) :
    r ∈ applyFilter f R ↔
      (r ∈ applyFilter { f with maxDistanceKm := none } R
        ∧ 0 < r.DistanceKmFromAirport ∧ r.DistanceKmFromAirport ≤ m) := by
  rw [applyFilter_eq_filter, applyFilter_eq_filter, List.mem_filter, List.mem_filter]
  have hiff : (r.DistanceKmFromAirport ≠ 0 ∧ r.DistanceKmFromAirport ≤ m) ↔
      (0 < r.DistanceKmFromAirport ∧ r.DistanceKmFromAirport ≤ m) := by
    constructor
    · rintro ⟨h1, h2⟩
      exact ⟨lt_of_le_of_ne hnn (Ne.symm h1), h2⟩
    · rintro ⟨h1, h2⟩
      exact ⟨ne_of_gt h1, h2⟩
  simp only [matchesFilter, hm, maxDistPred, Bool.and_eq_true, decide_eq_true_eq]
  tauto

theorem c3_witness : emptyFilter.maxDistanceKm = none ∧
    ({ emptyFilter with maxDistanceKm := some 12 } : Filter).maxDistanceKm = some 12 ∧
    (0 : ℚ) ≤ sampleWestin.DistanceKmFromAirport ∧
    (sampleWestin ∈ applyFilter { emptyFilter with maxDistanceKm := some 12 } [sampleWestin] ↔
      (sampleWestin ∈ applyFilter { emptyFilter with maxDistanceKm := none } [sampleWestin]
        ∧ 0 < sampleWestin.DistanceKmFromAirport ∧ sampleWestin.DistanceKmFromAirport ≤ 12)) :=
  ⟨rfl, rfl, by decide,
    c3_maxDistance_positive_inclusive { emptyFilter with maxDistanceKm := some 12 }
      [sampleWestin] sampleWestin 12 rfl (by decide)⟩

/-- C4: a brand value whose trimmed, lower-cased form is exactly
`"marriott"` is a no-op (the result equals that of the same filter without
the brand key); any other brand value restricts the brand-free result to
the records where the value occurs case-insensitively as a substring of the
brand field or the hotel name. -/
theorem c4_brand_umbrella_noop (f : Filter) (R : List HotelRecord) (b : String) :
    applyFilter { f with brand := some b } R =
      (if lc (jsTrim b) = "marriott" then applyFilter { f with brand := none } R
       else (applyFilter { f with brand := none } R).filter
         (fun r => contains r.Brand b || contains r.Hotel b)) := by
  rw [applyFilter_eq_filter, applyFilter_eq_filter]
  by_cases hm : lc (jsTrim b) = "marriott"
  · rw [if_pos hm]
    refine List.filter_congr (fun r _ => ?_)
    simp only [matchesFilter, brandPred]
    rw [if_pos hm]
  · rw [if_neg hm, List.filter_filter]
    refine List.filter_congr (fun r _ => ?_)
    simp only [matchesFilter, brandPred]
    rw [if_neg hm]
    cases cityPred f.city r <;> cases hotelPred f.hotel r <;> cases statePred f.state r <;>
      cases maxPtsPred f.maxPtsNight r <;> cases minPtsPred f.minPtsNight r <;>
      cases maxDistPred f.maxDistanceKm r <;>
      cases hb : (contains r.Brand b || contains r.Hotel b) <;> simp

/-- C10: a city/hotel/state filter value tokenizing to the empty token list
(for instance all-whitespace text) imposes no constraint at all:
`applyFilter` returns the same records as with the key absent. -/
theorem c10_whitespace_token_value_noop (f : Filter) (R : List HotelRecord)
    (s : String) (hs : tokens s = []) :
    applyFilter { f with city := some s } R = applyFilter { f with city := none } R
    ∧ applyFilter { f with hotel := some s } R = applyFilter { f with hotel := none } R
    ∧ applyFilter { f with state := some s } R = applyFilter { f with state := none } R := by
  refine ⟨?_, ?_, ?_⟩ <;>
  · rw [applyFilter_eq_filter, applyFilter_eq_filter]
    refine List.filter_congr (fun r _ => ?_)
    simp [matchesFilter, cityPred, hotelPred, statePred,
      containsAllTokens_of_tokens_nil hs]

theorem c10_witness : tokens "   " = [] ∧
    (applyFilter { emptyFilter with city := some "   " } sampleRecords =
        applyFilter { emptyFilter with city := none } sampleRecords
      ∧ applyFilter { emptyFilter with hotel := some "   " } sampleRecords =
        applyFilter { emptyFilter with hotel := none } sampleRecords
      ∧ applyFilter { emptyFilter with state := some "   " } sampleRecords =
        applyFilter { emptyFilter with state := none } sampleRecords) :=
  ⟨by decide, c10_whitespace_token_value_noop emptyFilter sampleRecords "   " (by decide)⟩

/-! ## C1: the schema validator's acceptance condition -/

/-- C1 counterexample: the claim says the validator accepts exactly the
objects whose numeric keys hold non-negative numbers, but
`{ "maxPtsNight": -5 }` — which the claim's acceptance condition rejects —
is accepted: the schema constrains the type `number`, not the sign. -/
theorem c1_counterexample :
    validateOk [("maxPtsNight", JVal.jnum (-5))] = true
    ∧ claimAccepts [("maxPtsNight", JVal.jnum (-5))] = false := by
  constructor <;> rfl

theorem string_number_keys_disjoint (k : String)
    (h1 : stringKeys.contains k = true) : numberKeys.contains k = false := by
  have hmem : k ∈ stringKeys := by simpa using h1
  fin_cases hmem <;> rfl

theorem entryErr_isNone (k : String) (v : JVal) :
    (entryErr k v).isNone = (match v with
      | JVal.jstr _ => stringKeys.contains k
      | JVal.jnum _ => numberKeys.contains k
      | _ => false) := by
  cases v <;> simp only [entryErr] <;>
    cases h1 : stringKeys.contains k <;> cases h2 : numberKeys.contains k <;>
    simp [h1, h2]
  all_goals (cases (string_number_keys_disjoint k h1).symm.trans h2)

theorem specAccepts_cons (k : String) (v : JVal) (t : JObj) :
    specAccepts ((k, v) :: t) = ((match v with
      | JVal.jstr _ => stringKeys.contains k
      | JVal.jnum _ => numberKeys.contains k
      | _ => false) && specAccepts t) := rfl

/-- C1 (amended): the validator accepts a candidate object exactly when
every key belongs to the whitelist of seven, the free-text keys hold
strings, and the numeric keys hold numbers (of any sign); any additional
property or wrongly-typed value is rejected. -/
theorem c1_schema_acceptance (o : JObj) : validateOk o = specAccepts o := by
  induction o with
  | nil => rfl
  | cons p t ih =>
    obtain ⟨k, v⟩ := p
    have hstep : validateOk ((k, v) :: t) = ((entryErr k v).isNone && validateOk t) := by
      simp only [validateOk, validateErrors, List.filterMap_cons]
      cases entryErr k v <;> simp [validateOk, validateErrors]
    rw [hstep, ih, entryErr_isNone, specAccepts_cons]

/-! ## C5: the cheapest reduction -/

theorem minAvgPts_le_self (xs : List ℚ) (x : ℚ) : minAvgPts x xs ≤ x := by
  induction xs generalizing x with
  | nil => exact le_refl x
  | cons y ys ih =>
    calc minAvgPts x (y :: ys) = minAvgPts (min x y) ys := rfl
    _ ≤ min x y := ih (min x y)
    _ ≤ x := min_le_left x y

theorem minAvgPts_le_mem (xs : List ℚ) (x y : ℚ) (hy : y ∈ xs) :
    minAvgPts x xs ≤ y := by
  induction xs generalizing x with
  | nil => cases hy
  | cons z zs ih =>
    rcases List.mem_cons.mp hy with h | h
    · subst h
      calc minAvgPts x (y :: zs) = minAvgPts (min x y) zs := rfl
      _ ≤ min x y := minAvgPts_le_self zs (min x y)
      _ ≤ y := min_le_right x y
    · exact ih (min x z) h

theorem minAvgPts_attained (xs : List ℚ) (x : ℚ) :
    minAvgPts x xs = x ∨ minAvgPts x xs ∈ xs := by
  induction xs generalizing x with
  | nil => exact Or.inl rfl
  | cons y ys ih =>
    rcases ih (min x y) with h | h
    · rcases min_choice x y with hx | hy
      · exact Or.inl (by rw [show minAvgPts x (y :: ys) = minAvgPts (min x y) ys from rfl, h, hx])
      · exact Or.inr (List.mem_cons.mpr (Or.inl (by
          rw [show minAvgPts x (y :: ys) = minAvgPts (min x y) ys from rfl, h, hy])))
    · exact Or.inr (List.mem_cons.mpr (Or.inr h))

/-- C5: whenever the query matches the cheapest-intent words, the
post-processor reduces the result set to exactly the records whose
`AvgPtsNight` attains the minimum over the set, all ties retained in
original order; on the sample values `[30000, 25000, 25000, 40000]` exactly
the two `25000` records remain. -/
theorem c5_cheapest_reduction (q : String) (data : List HotelRecord)
    (hq : wantsCheapest q = true) :
    cheapestStep q data = cheapestReduce data
    ∧ List.Sublist (cheapestStep q data) data
    ∧ (∀ r ∈ cheapestStep q data, ∀ s ∈ data, r.AvgPtsNight ≤ s.AvgPtsNight)
    ∧ (∀ r ∈ data, (∀ s ∈ data, r.AvgPtsNight ≤ s.AvgPtsNight) → r ∈ cheapestStep q data)
    ∧ cheapestStep q sampleRecords = [sampleJW, sampleCourtyard] := by
  have hstep : ∀ d : List HotelRecord, cheapestStep q d = cheapestReduce d := by
    intro d
    simp [cheapestStep, hq]
  refine ⟨hstep data, ?_, ?_, ?_, ?_⟩
  · rw [hstep]
    unfold cheapestReduce
    cases hmap : data.map (fun r => r.AvgPtsNight) with
    | nil => exact List.Sublist.refl data
    | cons x xs => exact List.filter_sublist data
  · rw [hstep]
    unfold cheapestReduce
    cases hmap : data.map (fun r => r.AvgPtsNight) with
    | nil => intro r hr; cases List.map_eq_nil_iff.mp hmap ▸ hr
    | cons x xs =>
      intro r hr s hs
      have hmem := List.mem_filter.mp hr
      have hrmin : r.AvgPtsNight = minAvgPts x xs := by
        have := hmem.2
        simpa using this
      have hsmem : s.AvgPtsNight ∈ x :: xs := by
        rw [← hmap]
        exact List.mem_map_of_mem _ hs
      rcases List.mem_cons.mp hsmem with h | h
      · rw [hrmin, h]
        exact minAvgPts_le_self xs x
      · rw [hrmin]
        exact minAvgPts_le_mem xs x _ h
  · rw [hstep]
    unfold cheapestReduce
    cases hmap : data.map (fun r => r.AvgPtsNight) with
    | nil => intro r hr; cases List.map_eq_nil_iff.mp hmap ▸ hr
    | cons x xs =>
      intro r hr hmin
      have hattain : minAvgPts x xs ∈ x :: xs := by
        rcases minAvgPts_attained xs x with h | h
        · exact List.mem_cons.mpr (Or.inl h)
        · exact List.mem_cons.mpr (Or.inr h)
      have : minAvgPts x xs ∈ data.map (fun r => r.AvgPtsNight) := hmap ▸ hattain
      obtain ⟨s0, hs0, hs0v⟩ := List.mem_map.mp this
      have h1 : r.AvgPtsNight ≤ minAvgPts x xs := hs0v ▸ hmin s0 hs0
      have hrmem : r.AvgPtsNight ∈ x :: xs := hmap ▸ List.mem_map_of_mem _ hr
      have h2 : minAvgPts x xs ≤ r.AvgPtsNight := by
        rcases List.mem_cons.mp hrmem with h | h
        · rw [h]
          exact minAvgPts_le_self xs x
        · exact minAvgPts_le_mem xs x _ h
      exact List.mem_filter.mpr ⟨hr, decide_eq_true (le_antisymm h1 h2)⟩
  · rw [hstep]
    decide

theorem c5_witness : wantsCheapest "cheapest stay" = true ∧
    cheapestStep "cheapest stay" sampleRecords = [sampleJW, sampleCourtyard] :=
  ⟨by decide, (c5_cheapest_reduction "cheapest stay" sampleRecords (by decide)).2.2.2.2⟩

/-! ## Lemmas about the object operations -/

theorem objGet_objSet_self (o : JObj) (k : String) (v : JVal) :
    objGet (objSet o k v) k = some v := by
  induction o with
  | nil => simp [objSet, objGet]
  | cons p t ih =>
    obtain ⟨k', v'⟩ := p
    by_cases h : k' = k
    · simp [objSet, objGet, h]
    · simp [objSet, objGet, h, ih]

theorem objGet_objSet_ne (o : JObj) {k k' : String} (v : JVal) (h : k' ≠ k) :
    objGet (objSet o k v) k' = objGet o k' := by
  have h' : k ≠ k' := Ne.symm h
  induction o with
  | nil => simp [objSet, objGet, h']
  | cons p t ih =>
    obtain ⟨k0, v0⟩ := p
    by_cases h0 : k0 = k
    · subst h0
      simp [objSet, objGet, h']
    · simp [objSet, objGet, h0, ih]

theorem objGet_objDelete_self (o : JObj) (k : String) :
    objGet (objDelete o k) k = none := by
  induction o with
  | nil => simp [objDelete, objGet]
  | cons p t ih =>
    obtain ⟨k0, v0⟩ := p
    by_cases h : k0 = k
    · simp [objDelete, objGet, h, ih]
    · simp [objDelete, objGet, h, ih]

theorem objGet_objDelete_ne (o : JObj) {k k' : String} (h : k' ≠ k) :
    objGet (objDelete o k) k' = objGet o k' := by
  have h' : k ≠ k' := Ne.symm h
  induction o with
  | nil => simp [objDelete, objGet]
  | cons p t ih =>
    obtain ⟨k0, v0⟩ := p
    by_cases h0 : k0 = k
    · subst h0
      simp [objDelete, objGet, h', ih]
    · simp [objDelete, objGet, h0, ih]

theorem objDelete_objSet_ne (o : JObj) {k k' : String} (v : JVal) (h : k ≠ k') :
    objDelete (objSet o k v) k' = objSet (objDelete o k') k v := by
  induction o with
  | nil => simp [objSet, objDelete, h]
  | cons p t ih =>
    obtain ⟨k0, v0⟩ := p
    by_cases h0 : k0 = k
    · subst h0
      simp [objSet, objDelete, h, ih]
    · by_cases h1 : k0 = k'
      · subst h1
        simp [objSet, objDelete, h0, ih]
      · simp [objSet, objDelete, h0, h1, ih]

theorem objDelete_objDelete_comm (o : JObj) (k k' : String) :
    objDelete (objDelete o k) k' = objDelete (objDelete o k') k := by
  induction o with
  | nil => simp [objDelete]
  | cons p t ih =>
    obtain ⟨k0, v0⟩ := p
    by_cases h0 : k0 = k
    · subst h0
      by_cases h1 : k0 = k'
      · subst h1
        simp [objDelete, ih]
      · simp [objDelete, h1, ih]
    · by_cases h1 : k0 = k'
      · subst h1
        simp [objDelete, h0, ih]
      · simp [objDelete, h0, h1, ih]

theorem objDelete_idem (o : JObj) (k : String) :
    objDelete (objDelete o k) k = objDelete o k := by
  induction o with
  | nil => simp [objDelete]
  | cons p t ih =>
    obtain ⟨k0, v0⟩ := p
    by_cases h0 : k0 = k <;> simp [objDelete, h0, ih]

/-! ## Lemmas about the correction steps -/

theorem objGet_canonStep {f o1 : JObj} (h : canonStep f = Except.ok o1) {k : String}
    (hk : k ≠ "city") : objGet o1 k = objGet f k := by
  simp only [canonStep] at h
  split at h
  all_goals try split at h
  all_goals
    first
    | exact Except.noConfusion h
    | (injection h with h
       subst h
       first
       | rfl
       | exact objGet_objSet_ne f _ hk)

theorem objGet_stateStep {ks : List String} {f o1 : JObj}
    (h : stateStep ks f = Except.ok o1) {k : String}
    (hk1 : k ≠ "city") (hk2 : k ≠ "state") : objGet o1 k = objGet f k := by
  simp only [stateStep] at h
  split at h
  all_goals try split at h
  all_goals try split at h
  all_goals
    first
    | exact Except.noConfusion h
    | (injection h with h
       subst h
       first
       | rfl
       | rw [objGet_objDelete_ne _ hk1, objGet_objSet_ne f _ hk2])

theorem objGet_inferStep (q : String) (f : JObj) {k : String} (hk : k ≠ "city") :
    objGet (inferStep q f) k = objGet f k := by
  simp only [inferStep]
  split
  · rfl
  · split
    · exact objGet_objSet_ne f _ hk
    · rfl

theorem objGet_dropSmallPts_ne (f : JObj) {kk k' : String} (h : k' ≠ kk) :
    objGet (dropSmallPts kk f) k' = objGet f k' := by
  rcases hg : objGet f kk with _ | v
  · simp [dropSmallPts, hg]
  · by_cases hv : jsLt1000 v
    · simp [dropSmallPts, hg, hv, objGet_objDelete_ne f h]
    · simp [dropSmallPts, hg, hv]

theorem objGet_dropSmallPts_self (f : JObj) (kk : String) :
    objGet (dropSmallPts kk f) kk =
      (objGet f kk).bind (fun v => if jsLt1000 v then none else some v) := by
  rcases hg : objGet f kk with _ | v
  · simp [dropSmallPts, hg]
  · by_cases hv : jsLt1000 v
    · simp [dropSmallPts, hg, hv, objGet_objDelete_self]
    · simp [dropSmallPts, hg, hv]

theorem dropSmallPts_objDelete (f : JObj) {kk d : String} (h : d ≠ kk) :
    dropSmallPts kk (objDelete f d) = objDelete (dropSmallPts kk f) d := by
  have h' : kk ≠ d := Ne.symm h
  rcases hg : objGet f kk with _ | v
  · simp [dropSmallPts, hg, objGet_objDelete_ne f h']
  · by_cases hv : jsLt1000 v
    · simp [dropSmallPts, hg, hv, objGet_objDelete_ne f h', objDelete_objDelete_comm]
    · simp [dropSmallPts, hg, hv, objGet_objDelete_ne f h']

theorem canonStep_objDelete (f : JObj) {d : String} (hd : d ≠ "city") :
    canonStep (objDelete f d) = Except.map (fun o => objDelete o d) (canonStep f) := by
  have hcity : ("city" : String) ≠ d := Ne.symm hd
  rcases hg : objGet f "city" with _ | v
  · simp [canonStep, hg, objGet_objDelete_ne f hcity, Except.map]
  · cases v with
    | jstr s =>
      by_cases hs : s = ""
      · subst hs
        simp [canonStep, hg, objGet_objDelete_ne f hcity, Except.map]
      · simp [canonStep, hg, hs, objGet_objDelete_ne f hcity, Except.map,
          objDelete_objSet_ne f _ hcity]
    | jnum q =>
      by_cases ht : jsTruthy (.jnum q) <;>
        simp [canonStep, hg, ht, objGet_objDelete_ne f hcity, Except.map]
    | jbool b =>
      cases b <;> simp [canonStep, hg, objGet_objDelete_ne f hcity, jsTruthy, Except.map]
    | jnull =>
      simp [canonStep, hg, objGet_objDelete_ne f hcity, jsTruthy, Except.map]

theorem stateStep_objDelete (ks : List String) (f : JObj) {d : String}
    (hd1 : d ≠ "city") (hd2 : d ≠ "state") :
    stateStep ks (objDelete f d) = Except.map (fun o => objDelete o d) (stateStep ks f) := by
  have hcity : ("city" : String) ≠ d := Ne.symm hd1
  have hstate : ("state" : String) ≠ d := Ne.symm hd2
  rcases hg : objGet f "city" with _ | v
  · simp [stateStep, hg, objGet_objDelete_ne f hcity, Except.map]
  · cases v with
    | jstr s =>
      by_cases hne : s = ""
      · subst hne
        simp [stateStep, hg, objGet_objDelete_ne f hcity, Except.map]
      · by_cases hst : jsTruthyOpt (objGet f "state") = true
        · simp [stateStep, hg, objGet_objDelete_ne f hcity, objGet_objDelete_ne f hstate,
            hne, hst, Except.map]
        · by_cases hks : lc s ∈ ks
          · simp [stateStep, hg, objGet_objDelete_ne f hcity, objGet_objDelete_ne f hstate,
              hne, hst, hks, Except.map, objDelete_objSet_ne f _ hstate,
              objDelete_objDelete_comm]
          · simp [stateStep, hg, objGet_objDelete_ne f hcity, objGet_objDelete_ne f hstate,
              hne, hst, hks, Except.map]
    | jnum q =>
      by_cases hq : q = 0
      · subst hq
        simp [stateStep, hg, objGet_objDelete_ne f hcity, objGet_objDelete_ne f hstate,
          jsTruthy, Except.map]
      · by_cases hst : jsTruthyOpt (objGet f "state") = true <;>
          simp [stateStep, hg, objGet_objDelete_ne f hcity, objGet_objDelete_ne f hstate,
            jsTruthy, hq, hst, Except.map]
    | jbool b =>
      cases b
      · simp [stateStep, hg, objGet_objDelete_ne f hcity, objGet_objDelete_ne f hstate,
          jsTruthy, Except.map]
      · by_cases hst : jsTruthyOpt (objGet f "state") = true <;>
          simp [stateStep, hg, objGet_objDelete_ne f hcity, objGet_objDelete_ne f hstate,
            jsTruthy, hst, Except.map]
    | jnull =>
      simp [stateStep, hg, objGet_objDelete_ne f hcity, objGet_objDelete_ne f hstate,
        jsTruthy, Except.map]

theorem inferStep_objDelete (q : String) (f : JObj) {d : String} (hd : d ≠ "city") :
    inferStep q (objDelete f d) = objDelete (inferStep q f) d := by
  have hcity : ("city" : String) ≠ d := Ne.symm hd
  by_cases ht : jsTruthyOpt (objGet f "city") = true
  · simp [inferStep, objGet_objDelete_ne f hcity, ht]
  · rcases hi : inferCity q with _ | c
    · simp [inferStep, objGet_objDelete_ne f hcity, ht, hi]
    · simp [inferStep, objGet_objDelete_ne f hcity, ht, hi,
        objDelete_objSet_ne f _ hcity]

theorem ptsStep_objDelete (f : JObj) {d : String}
    (hd1 : d ≠ "maxPtsNight") (hd2 : d ≠ "minPtsNight") :
    ptsStep (objDelete f d) = objDelete (ptsStep f) d := by
  simp only [ptsStep]
  rw [dropSmallPts_objDelete f hd1, dropSmallPts_objDelete _ hd2]

theorem correctFilter_strip (ks : List String) (q : String) (f : JObj) :
    correctFilter ks q (objDelete f "maxDistanceKm")
      = Except.map (fun o => objDelete o "maxDistanceKm") (correctFilter ks q f) := by
  have hd1 : ("maxDistanceKm" : String) ≠ "city" := by decide
  have hd2 : ("maxDistanceKm" : String) ≠ "state" := by decide
  have hd3 : ("maxDistanceKm" : String) ≠ "maxPtsNight" := by decide
  have hd4 : ("maxDistanceKm" : String) ≠ "minPtsNight" := by decide
  rcases h1 : canonStep f with e | f1
  · simp [correctFilter, canonStep_objDelete f hd1, h1, Except.map, Except.bind,
      bind, Functor.map]
  · rcases h2 : stateStep ks f1 with e | f2
    · simp [correctFilter, canonStep_objDelete f hd1, h1,
        stateStep_objDelete ks f1 hd1 hd2, h2, Except.map, Except.bind, bind, Functor.map]
    · simp [correctFilter, canonStep_objDelete f hd1, h1,
        stateStep_objDelete ks f1 hd1 hd2, h2, Except.map, Except.bind, bind, Functor.map,
        inferStep_objDelete q f2 hd1, ptsStep_objDelete (inferStep q f2) hd3 hd4,
        pure, Except.pure]

/-! ## C6: the nearest intent -/

theorem nearestPost_spec (l : List HotelRecord) :
    (nearestPost l).length ≤ 5
    ∧ (∀ r ∈ nearestPost l, 0 < r.DistanceKmFromAirport)
    ∧ List.Pairwise distLe (nearestPost l) := by
  refine ⟨?_, ?_, ?_⟩
  · exact List.length_take_le 5 _
  · intro r hr
    have h1 : r ∈ (l.filter
        (fun r => decide (0 < r.DistanceKmFromAirport))).insertionSort distLe :=
      List.mem_of_mem_take hr
    have h2 : r ∈ l.filter (fun r => decide (0 < r.DistanceKmFromAirport)) :=
      (List.perm_insertionSort distLe _).mem_iff.mp h1
    have h3 := (List.mem_filter.mp h2).2
    simpa using h3
  · exact List.Pairwise.sublist (List.take_sublist 5 _)
      (List.sorted_insertionSort distLe _)

/-- C6: for a query matching the nearest-intent words: (a) a `maxDistanceKm`
key in the translated filter is ignored — the handler responds exactly as it
does for the same LLM output with the key deleted, the key being stripped
before validation; (b) every successful response carries at most five
records, all with strictly positive `DistanceKmFromAirport`, in ascending
distance order, with the reported count equal to the number of records. -/
theorem c6_nearest_intent (apiKeySet : Bool) (q : String) (recs : List HotelRecord)
    (hq : wantsNearest q = true) :
    (∀ o : JObj, handleSearch apiKeySet (some q) (.json o) recs
        = handleSearch apiKeySet (some q) (.json (objDelete o "maxDistanceKm")) recs)
    ∧ (∀ (llm : LLMResult) (n : Nat) (data : List HotelRecord),
        handleSearch apiKeySet (some q) llm recs = .ok n data →
          n = data.length ∧ data.length ≤ 5
          ∧ (∀ r ∈ data, 0 < r.DistanceKmFromAirport)
          ∧ List.Pairwise distLe data) := by
  constructor
  · intro o
    by_cases hq0 : q = ""
    · simp [handleSearch, hq0]
    · cases apiKeySet with
      | false => simp [handleSearch, hq0, queryToFilter]
      | true =>
        have hstrip := correctFilter_strip (knownStatesOf recs) q o
        rcases hc : correctFilter (knownStatesOf recs) q o with e | o'
        · rw [hc] at hstrip
          simp only [Except.map] at hstrip
          simp [handleSearch, hq0, queryToFilter, hc, hstrip]
        · rw [hc] at hstrip
          simp only [Except.map] at hstrip
          simp [handleSearch, hq0, queryToFilter, hc, hstrip, stripNearestCap, hq,
            objDelete_idem]
  · intro llm n data h
    by_cases hq0 : q = ""
    · simp [handleSearch, hq0] at h
    · rcases hqf : queryToFilter apiKeySet (knownStatesOf recs) q llm with e | f0
      · simp [handleSearch, hq0, hqf] at h
      · by_cases hv : validateOk (stripNearestCap q f0) = true
        · simp only [handleSearch, if_neg hq0, hqf] at h
          rw [if_pos hv] at h
          injection h with h1 h2
          subst h1
          subst h2
          have hx : nearestStep q (cheapestStep q
              (applyFilter (toFilter (stripNearestCap q f0)) recs))
              = nearestPost (cheapestStep q
                (applyFilter (toFilter (stripNearestCap q f0)) recs)) := by
            simp [nearestStep, hq]
          rw [hx]
          exact ⟨rfl, (nearestPost_spec _).1, (nearestPost_spec _).2.1,
            (nearestPost_spec _).2.2⟩
        · simp [handleSearch, hq0, hqf, hv] at h

theorem c6_witness : wantsNearest "nearest hotel" = true ∧
    handleSearch true (some "nearest hotel")
        (.json [("maxDistanceKm", JVal.jnum 1)]) sampleRecords
      = handleSearch true (some "nearest hotel")
        (.json (objDelete [("maxDistanceKm", JVal.jnum 1)] "maxDistanceKm")) sampleRecords
    ∧ handleSearch true (some "nearest hotel")
        (.json [("maxDistanceKm", JVal.jnum 1)]) sampleRecords
      = .ok 3 [sampleJW, sampleWestin, sampleRitz]
    ∧ [sampleJW, sampleWestin, sampleRitz].length ≤ 5 :=
  ⟨by decide,
   (c6_nearest_intent true "nearest hotel" sampleRecords (by decide)).1 _,
   by decide,
   ((c6_nearest_intent true "nearest hotel" sampleRecords (by decide)).2
     (.json [("maxDistanceKm", JVal.jnum 1)]) 3 [sampleJW, sampleWestin, sampleRitz]
     (by decide)).2.1⟩

/-! ## C7: the state-misclassification correction -/

theorem canonicalCity_ne_empty {c : String} (hc : c ≠ "") : canonicalCity c ≠ "" := by
  rcases hf : cityAliases.find? (fun p => p.1 = lc c) with _ | p
  · simpa [canonicalCity, hf] using hc
  · have hmem := List.mem_of_find?_eq_some hf
    simp only [canonicalCity, hf]
    fin_cases hmem <;> decide

/-- C7: whenever the model output holds a `city` whose canonicalized value
is (lower-cased) a known state, and no truthy `state`, the translator's
correction succeeds, sets `state` to that city value, and removes the
`city` key (which stays absent provided the query triggers no city-alias
inference). -/
theorem c7_state_misclassification (ks : List String) (q : String) (o : JObj) (c : String)
    (h1 : objGet o "city" = some (JVal.jstr c))
    (h2 : objGet o "state" = none)
    (h3 : ks.contains (lc (canonicalCity c)) = true)
    (h4 : ks.contains "" = false) :
    (correctFilter ks q o).isOk = true
    ∧ ∀ o', correctFilter ks q o = Except.ok o' →
        objGet o' "state" = some (JVal.jstr (canonicalCity c))
        ∧ (inferCity q = none → objGet o' "city" = none) := by
  have hc : c ≠ "" := by
    intro h
    subst h
    rw [show lc (canonicalCity "") = "" from rfl] at h3
    exact Bool.noConfusion (h4.symm.trans h3)
  have hc'ne : canonicalCity c ≠ "" := canonicalCity_ne_empty hc
  have hcanon : canonStep o = Except.ok (objSet o "city" (JVal.jstr (canonicalCity c))) := by
    simp [canonStep, h1, hc]
  have h1city : objGet (objSet o "city" (JVal.jstr (canonicalCity c))) "city"
      = some (JVal.jstr (canonicalCity c)) := objGet_objSet_self o _ _
  have h1state : objGet (objSet o "city" (JVal.jstr (canonicalCity c))) "state" = none := by
    rw [objGet_objSet_ne o _ (show ("state" : String) ≠ "city" by decide), h2]
  have h3' : lc (canonicalCity c) ∈ ks := by simpa using h3
  have hstate : stateStep ks (objSet o "city" (JVal.jstr (canonicalCity c)))
      = Except.ok (objDelete (objSet (objSet o "city" (JVal.jstr (canonicalCity c)))
          "state" (JVal.jstr (canonicalCity c))) "city") := by
    simp [stateStep, h1city, h1state, jsTruthyOpt, hc'ne, h3']
  have h2city : objGet (objDelete (objSet (objSet o "city" (JVal.jstr (canonicalCity c)))
      "state" (JVal.jstr (canonicalCity c))) "city") "city" = none :=
    objGet_objDelete_self _ _
  have h2state : objGet (objDelete (objSet (objSet o "city" (JVal.jstr (canonicalCity c)))
      "state" (JVal.jstr (canonicalCity c))) "city") "state"
      = some (JVal.jstr (canonicalCity c)) := by
    rw [objGet_objDelete_ne _ (show ("state" : String) ≠ "city" by decide)]
    exact objGet_objSet_self _ _ _
  have hcf : correctFilter ks q o = Except.ok (ptsStep (inferStep q
      (objDelete (objSet (objSet o "city" (JVal.jstr (canonicalCity c)))
        "state" (JVal.jstr (canonicalCity c))) "city"))) := by
    simp [correctFilter, hcanon, hstate, Except.bind, bind, Functor.map, Except.map,
      pure, Except.pure]
  constructor
  · rw [hcf]; rfl
  · intro o' ho'
    rw [hcf] at ho'
    injection ho' with ho'
    subst ho'
    have hpts_state : ∀ g : JObj, objGet (ptsStep g) "state" = objGet g "state" := by
      intro g
      simp only [ptsStep]
      rw [objGet_dropSmallPts_ne _ (show ("state" : String) ≠ "minPtsNight" by decide),
        objGet_dropSmallPts_ne _ (show ("state" : String) ≠ "maxPtsNight" by decide)]
    have hpts_city : ∀ g : JObj, objGet (ptsStep g) "city" = objGet g "city" := by
      intro g
      simp only [ptsStep]
      rw [objGet_dropSmallPts_ne _ (show ("city" : String) ≠ "minPtsNight" by decide),
        objGet_dropSmallPts_ne _ (show ("city" : String) ≠ "maxPtsNight" by decide)]
    constructor
    · rw [hpts_state,
        objGet_inferStep q _ (show ("state" : String) ≠ "city" by decide), h2state]
    · intro hic
      have hinfer : inferStep q (objDelete (objSet (objSet o "city"
          (JVal.jstr (canonicalCity c))) "state" (JVal.jstr (canonicalCity c))) "city")
          = objDelete (objSet (objSet o "city" (JVal.jstr (canonicalCity c)))
            "state" (JVal.jstr (canonicalCity c))) "city" := by
        simp [inferStep, h2city, jsTruthyOpt, hic]
      rw [hpts_city, hinfer, h2city]

theorem c7_witness :
    (correctFilter ["haryana"] "best hotels" [("city", JVal.jstr "Haryana")]).isOk = true
    ∧ objGet [("state", JVal.jstr "Haryana")] "state" = some (JVal.jstr "Haryana")
    ∧ objGet [("state", JVal.jstr "Haryana")] "city" = none
    ∧ correctFilter ["haryana"] "best hotels" [("city", JVal.jstr "Haryana")]
        = Except.ok [("state", JVal.jstr "Haryana")] := by
  have h := c7_state_misclassification ["haryana"] "best hotels"
    [("city", JVal.jstr "Haryana")] "Haryana" rfl rfl (by decide) (by decide)
  have h2 := h.2 [("state", JVal.jstr "Haryana")] rfl
  exact ⟨h.1, h2.1, h2.2 rfl, rfl⟩

/-! ## C8: the numeric-sanity correction -/

theorem bind_drop_iff (a : Option JVal) (x : ℚ) :
    ((a.bind (fun v => if jsLt1000 v then none else some v) = some (JVal.jnum x)) ↔
      (a = some (JVal.jnum x) ∧ 1000 ≤ x))
    ∧ ((a = some (JVal.jnum x)) → x < 1000 →
      a.bind (fun v => if jsLt1000 v then none else some v) = none) := by
  have hsome : ∀ v : JVal, (some v).bind (fun v => if jsLt1000 v then none else some v)
      = (if jsLt1000 v then none else some v) := fun _ => rfl
  constructor
  · rcases a with _ | v
    · simp
    · rw [hsome]
      by_cases hv : jsLt1000 v = true
      · rw [if_pos hv]
        constructor
        · intro hcontra
          exact Option.noConfusion hcontra
        · rintro ⟨hveq, hle⟩
          injection hveq with hveq
          subst hveq
          exact absurd (of_decide_eq_true hv) (not_lt.mpr hle)
      · rw [if_neg hv]
        constructor
        · intro heq
          injection heq with heq
          subst heq
          exact ⟨rfl, le_of_not_lt (fun hlt => hv (decide_eq_true hlt))⟩
        · rintro ⟨hveq, _⟩
          exact hveq
  · intro h1 h2
    rw [h1, hsome, if_pos (show jsLt1000 (JVal.jnum x) = true from decide_eq_true h2)]

/-- C8: the corrected filter contains `minPtsNight` (resp. `maxPtsNight`)
with a numeric value exactly when the raw model output supplied that key
with a number of at least 1000; a supplied value strictly below 1000 is
removed entirely (the threshold check is `< 1000`, so exactly 1000 is
retained). -/
theorem c8_numeric_sanity (ks : List String) (q : String) (o o' : JObj) (x : ℚ)
    (h : correctFilter ks q o = Except.ok o') :
    ((objGet o' "maxPtsNight" = some (JVal.jnum x)) ↔
      (objGet o "maxPtsNight" = some (JVal.jnum x) ∧ 1000 ≤ x))
    ∧ (objGet o "maxPtsNight" = some (JVal.jnum x) → x < 1000 →
        objGet o' "maxPtsNight" = none)
    ∧ ((objGet o' "minPtsNight" = some (JVal.jnum x)) ↔
      (objGet o "minPtsNight" = some (JVal.jnum x) ∧ 1000 ≤ x))
    ∧ (objGet o "minPtsNight" = some (JVal.jnum x) → x < 1000 →
        objGet o' "minPtsNight" = none) := by
  rcases h1 : canonStep o with e | o1
  · simp [correctFilter, h1, Except.bind, bind] at h
  · rcases h2 : stateStep ks o1 with e | o2
    · simp [correctFilter, h1, h2, Except.bind, bind, Functor.map, Except.map] at h
    · have ho' : o' = ptsStep (inferStep q o2) := by
        simp [correctFilter, h1, h2, Except.bind, bind, Functor.map, Except.map,
          pure, Except.pure] at h
        exact h.symm
      subst ho'
      have hpres : ∀ k, k ≠ "city" → k ≠ "state" → objGet (inferStep q o2) k = objGet o k := by
        intro k hk1 hk2
        rw [objGet_inferStep q o2 hk1, objGet_stateStep h2 hk1 hk2, objGet_canonStep h1 hk1]
      have hmax : objGet (ptsStep (inferStep q o2)) "maxPtsNight"
          = (objGet o "maxPtsNight").bind (fun v => if jsLt1000 v then none else some v) := by
        simp only [ptsStep]
        rw [objGet_dropSmallPts_ne _
            (show ("maxPtsNight" : String) ≠ "minPtsNight" by decide),
          objGet_dropSmallPts_self,
          hpres _ (by decide) (by decide)]
      have hmin : objGet (ptsStep (inferStep q o2)) "minPtsNight"
          = (objGet o "minPtsNight").bind (fun v => if jsLt1000 v then none else some v) := by
        simp only [ptsStep]
        rw [objGet_dropSmallPts_self,
          objGet_dropSmallPts_ne _
            (show ("minPtsNight" : String) ≠ "maxPtsNight" by decide),
          hpres _ (by decide) (by decide)]
      rw [hmax, hmin]
      exact ⟨(bind_drop_iff (objGet o "maxPtsNight") x).1,
        (bind_drop_iff (objGet o "maxPtsNight") x).2,
        (bind_drop_iff (objGet o "minPtsNight") x).1,
        (bind_drop_iff (objGet o "minPtsNight") x).2⟩

theorem c8_witness :
    (correctFilter [] "points" [("maxPtsNight", JVal.jnum 5000), ("minPtsNight", JVal.jnum 5)]
      = Except.ok [("maxPtsNight", JVal.jnum 5000)])
    ∧ ((objGet [("maxPtsNight", JVal.jnum 5000)] "maxPtsNight" = some (JVal.jnum 5000)) ↔
        (objGet [("maxPtsNight", JVal.jnum 5000), ("minPtsNight", JVal.jnum 5)] "maxPtsNight"
          = some (JVal.jnum 5000) ∧ (1000 : ℚ) ≤ 5000))
    ∧ ((objGet [("maxPtsNight", JVal.jnum 5000), ("minPtsNight", JVal.jnum 5)] "minPtsNight"
          = some (JVal.jnum 5)) → (5 : ℚ) < 1000 →
        objGet [("maxPtsNight", JVal.jnum 5000)] "minPtsNight" = none) := by
  have hcf : correctFilter [] "points"
      [("maxPtsNight", JVal.jnum 5000), ("minPtsNight", JVal.jnum 5)]
      = Except.ok [("maxPtsNight", JVal.jnum 5000)] := rfl
  have h1 := c8_numeric_sanity [] "points"
    [("maxPtsNight", JVal.jnum 5000), ("minPtsNight", JVal.jnum 5)]
    [("maxPtsNight", JVal.jnum 5000)] 5000 hcf
  have h2 := c8_numeric_sanity [] "points"
    [("maxPtsNight", JVal.jnum 5000), ("minPtsNight", JVal.jnum 5)]
    [("maxPtsNight", JVal.jnum 5000)] 5 hcf
  exact ⟨hcf, h1.1, h2.2.2.2⟩

/-! ## C9: the request boundary -/

/-- C9: the handler is a total function into single responses — no error
escapes and no partial result accompanies an error — and its outcome is:
a client error for a missing (or empty, hence falsy) query; a 503 carrying
the message for a missing credential, a model-call fault, malformed model
output, or a correction-step fault; a client error carrying the non-empty
list of offending keys/types when schema validation fails; and otherwise a
single success response carrying the post-processed matching records
together with their count. -/
theorem c9_error_boundary (apiKeySet : Bool) (query? : Option String)
    (llm : LLMResult) (recs : List HotelRecord) :
    ((query? = none ∨ query? = some "") →
      handleSearch apiKeySet query? llm recs = .badRequest "query field required")
    ∧ (∀ q, query? = some q → q ≠ "" → apiKeySet = false →
      handleSearch apiKeySet query? llm recs = .unavailable "OPENAI_API_KEY missing")
    ∧ (∀ q m, query? = some q → q ≠ "" → apiKeySet = true → llm = .fault m →
      handleSearch apiKeySet query? llm recs = .unavailable m)
    ∧ (∀ q m, query? = some q → q ≠ "" → apiKeySet = true → llm = .badJson m →
      handleSearch apiKeySet query? llm recs = .unavailable m)
    ∧ (∀ q o e, query? = some q → q ≠ "" → apiKeySet = true → llm = .json o →
      correctFilter (knownStatesOf recs) q o = .error e →
      handleSearch apiKeySet query? llm recs = .unavailable e)
    ∧ (∀ q o f0, query? = some q → q ≠ "" → apiKeySet = true → llm = .json o →
      correctFilter (knownStatesOf recs) q o = .ok f0 →
      validateOk (stripNearestCap q f0) = false →
      handleSearch apiKeySet query? llm recs
        = .unprocessable (validateErrors (stripNearestCap q f0))
      ∧ validateErrors (stripNearestCap q f0) ≠ [])
    ∧ (∀ q o f0, query? = some q → q ≠ "" → apiKeySet = true → llm = .json o →
      correctFilter (knownStatesOf recs) q o = .ok f0 →
      validateOk (stripNearestCap q f0) = true →
      handleSearch apiKeySet query? llm recs
        = .ok (nearestStep q (cheapestStep q
            (applyFilter (toFilter (stripNearestCap q f0)) recs))).length
          (nearestStep q (cheapestStep q
            (applyFilter (toFilter (stripNearestCap q f0)) recs)))) := by
  refine ⟨?_, ?_, ?_, ?_, ?_, ?_, ?_⟩
  · rintro (h | h) <;> subst h <;> simp [handleSearch]
  · intro q hq hq0 hk
    subst hq; subst hk
    simp [handleSearch, hq0, queryToFilter]
  · intro q m hq hq0 hk hllm
    subst hq; subst hk; subst hllm
    simp [handleSearch, hq0, queryToFilter]
  · intro q m hq hq0 hk hllm
    subst hq; subst hk; subst hllm
    simp [handleSearch, hq0, queryToFilter]
  · intro q o e hq hq0 hk hllm hcf
    subst hq; subst hk; subst hllm
    simp [handleSearch, hq0, queryToFilter, hcf]
  · intro q o f0 hq hq0 hk hllm hcf hv
    subst hq; subst hk; subst hllm
    constructor
    · simp [handleSearch, hq0, queryToFilter, hcf, hv]
    · intro hnil
      simp only [validateOk, hnil] at hv
      exact Bool.noConfusion hv
  · intro q o f0 hq hq0 hk hllm hcf hv
    subst hq; subst hk; subst hllm
    simp [handleSearch, hq0, queryToFilter, hcf, hv]

theorem c9_witness :
    handleSearch true none (.fault "boom") [] = .badRequest "query field required"
    ∧ handleSearch true (some "hotels") (.fault "boom") [] = .unavailable "boom"
    ∧ handleSearch false (some "hotels") (.json []) []
        = .unavailable "OPENAI_API_KEY missing" :=
  ⟨(c9_error_boundary true none (.fault "boom") []).1 (Or.inl rfl),
   (c9_error_boundary true (some "hotels") (.fault "boom") []).2.2.1 "hotels" "boom"
     rfl (by decide) rfl rfl,
   (c9_error_boundary false (some "hotels") (.json []) []).2.1 "hotels"
     rfl (by decide) rfl⟩

end MarriottFinder
